import Mathlib

/-!
Verification of the Deployment Lifecycle Manager of OpenGittr/opensourcer.

This file gives a shallow embedding, in Lean 4, of the Go code in
`internal/docker.go`, `internal/types.go` and the CLI service file
(store helpers `loadDeployments` / `saveDeployments` / `addDeployment` /
`findDeployment` / `updateDeploymentStatus` / `removeDeployment`, the
secure token generator `generatePassword`, the environment synthesizer
`prepareEnvVars`, the port resolver `findExposedPort`, and the lifecycle
operations `deployLocal` / `Destroy`), followed by theorems settling the
spec claims about those functions.

Modelling conventions:
* Go maps used only for keyed lookup are modelled as association lists;
  Go maps that are *iterated* (the port table, the user-input map) carry
  their unspecified iteration order as an explicit parameter or as list
  order.
* `crypto/rand.Read` is modelled by a `RandSource`: a byte stream plus an
  `ok` flag; on failure the zero-initialised buffer stays zeroed, which
  is what the Go call site observes since it discards the error.
* `encoding/json` marshalling of the deployments file is modelled at the
  JSON-value level: `Json` terms stand for the serialized text, encoding
  mirrors the struct tags of `types.go`, decoding mirrors Go's
  unmarshalling discipline (missing field or JSON null gives the zero
  value, a type mismatch is an error).
* `time.Time` values are abstracted to `Nat` timestamps.
-/

namespace Opensourcer

/-! ### Data model (internal/types.go) -/

/-- InputConfig from types.go: one user-configurable input. -/
structure InputConfig where
  label : String
  placeholder : String
  required : Bool
  type : String
  description : String
  defaultVal : String
deriving DecidableEq

/-- ServiceInfo from types.go. -/
structure ServiceInfo where
  exposed : Bool
  stateless : Bool
  internal : Bool
  managedOption : String
deriving DecidableEq

/-- CatalogDetail from types.go; the Go maps `Inputs` and `Services` are
modelled as association lists whose list order stands for the map's
iteration order. -/
structure CatalogDetail where
  Name : String
  Description : String
  Website : String
  Icon : String
  Category : String
  Tags : List String
  Inputs : List (String × InputConfig)
  Services : List (String × ServiceInfo)
deriving DecidableEq

/-- LocalDeployment from types.go; `time.Time` fields are abstracted to
`Nat`, the `Inputs` map to an association list. -/
structure LocalDeployment where
  ID : String
  Software : String
  Target : String
  Status : String
  Directory : String
  Port : Int
  Inputs : List (String × String)
  CreatedAt : Nat
  UpdatedAt : Nat
deriving DecidableEq

/-! ### Deployment store helpers (CLI service file) -/

/-- findDeployment: first record whose Software field equals the slug. -/
def findDeployment (ds : List LocalDeployment) (software : String) :
    Option LocalDeployment :=
  ds.find? (fun d => d.Software == software)

/-- addDeployment: appends the record to the list (and saves). -/
def addDeployment (ds : List LocalDeployment) (d : LocalDeployment) :
    List LocalDeployment :=
  ds ++ [d]

/-- updateDeploymentStatus: update the status and UpdatedAt of the first
record with the given id, then save; the Bool reports whether
saveDeployments was invoked (i.e. whether a match was found). -/
def updateDeploymentStatus :
    List LocalDeployment → String → String → Nat →
    List LocalDeployment × Bool
  | [], _, _, _ => ([], false)
  | d :: rest, i, status, now =>
    if d.ID == i then
      ({ d with Status := status, UpdatedAt := now } :: rest, true)
    else
      (d :: (updateDeploymentStatus rest i status now).1,
       (updateDeploymentStatus rest i status now).2)

/-- removeDeployment: remove the first record with the given id, then
save; the Bool reports whether saveDeployments was invoked. -/
def removeDeployment :
    List LocalDeployment → String → List LocalDeployment × Bool
  | [], _ => ([], false)
  | d :: rest, i =>
    if d.ID == i then (rest, true)
    else
      (d :: (removeDeployment rest i).1, (removeDeployment rest i).2)

/-! ### Secure token generator (generatePassword) -/

/-- Model of `crypto/rand`: an unbounded byte stream plus an availability
flag; `ok = false` models the secure source being unavailable (the read
returns an error having filled nothing). -/
structure RandSource where
  stream : Nat → Fin 256
  ok : Bool

/-- Model of `rand.Read` into a fresh zero-initialised buffer of n bytes:
on success the first n stream bytes, on failure the buffer stays zeroed
(the call site discards the error). -/
def randRead (src : RandSource) (n : Nat) : List (Fin 256) :=
  if src.ok then (List.range n).map src.stream else List.replicate n 0

/-- Buffer size allocated by generatePassword: `make([]byte, length/2+1)`. -/
def randBufLen (length : Nat) : Nat := length / 2 + 1

/-- Lowercase hexadecimal digit, as produced by `hex.EncodeToString`. -/
def lowerHexDigit : Nat → Char
  | 0 => '0' | 1 => '1' | 2 => '2' | 3 => '3'
  | 4 => '4' | 5 => '5' | 6 => '6' | 7 => '7'
  | 8 => '8' | 9 => '9' | 10 => 'a' | 11 => 'b'
  | 12 => 'c' | 13 => 'd' | 14 => 'e' | _ => 'f'

/-- Hex encoding of one byte (two lowercase digits). -/
def hexEncodeByte (b : Fin 256) : List Char :=
  [lowerHexDigit (b.val / 16), lowerHexDigit (b.val % 16)]

/-- `hex.EncodeToString` over a byte buffer. -/
def hexEncode : List (Fin 256) → List Char
  | [] => []
  | b :: rest => hexEncodeByte b ++ hexEncode rest

/-- generatePassword from the CLI service file:
`bytes := make([]byte, length/2+1); rand.Read(bytes);
 return strings.ToUpper(hex.EncodeToString(bytes)[:length])`.
The error of rand.Read is discarded, exactly as in the source. -/
def generatePassword (length : Nat) (src : RandSource) : String :=
  String.mk (((hexEncode (randRead src (randBufLen length))).map
    Char.toUpper).take length)

/-- Uppercase hexadecimal character test. -/
def isUpperHexChar (c : Char) : Bool :=
  (decide ('0' ≤ c) && decide (c ≤ '9')) ||
  (decide ('A' ≤ c) && decide (c ≤ 'F'))

theorem hexEncode_length (bs : List (Fin 256)) :
    (hexEncode bs).length = 2 * bs.length := by
  induction bs with
  | nil => rfl
  | cons b rest ih =>
    simp [hexEncode, hexEncodeByte, ih]
    omega

theorem randRead_length (src : RandSource) (n : Nat) :
    (randRead src n).length = n := by
  unfold randRead
  by_cases h : src.ok <;> simp [h]

theorem lowerHexDigit_upper_ok (n : Nat) (h : n < 16) :
    isUpperHexChar (Char.toUpper (lowerHexDigit n)) = true := by
  interval_cases n <;> decide

theorem hexEncode_chars_upper_ok (bs : List (Fin 256)) (c : Char)
    (hc : c ∈ (hexEncode bs).map Char.toUpper) :
    isUpperHexChar c = true := by
  induction bs with
  | nil => simp [hexEncode] at hc
  | cons b rest ih =>
    rw [hexEncode, List.map_append, List.mem_append] at hc
    rcases hc with h1 | h2
    · rcases List.mem_map.mp h1 with ⟨a, ha, rfl⟩
      simp only [hexEncodeByte, List.mem_cons, List.not_mem_nil,
        or_false] at ha
      rcases ha with rfl | rfl
      · exact lowerHexDigit_upper_ok _ (Nat.div_lt_of_lt_mul b.isLt)
      · exact lowerHexDigit_upper_ok _ (Nat.mod_lt _ (by omega))
    · exact ih h2

/-- Claim C4 (amended): for every requested length L ≥ 1 and every random
source, generate(L) returns a string of exactly L characters, each an
uppercase hexadecimal character, and the buffer of random bytes consumed
has exactly ⌊L/2⌋+1 bytes (which are hex-encoded and then truncated to L
characters). -/
theorem generatePassword_spec (L : Nat) (src : RandSource) (_hL : 1 ≤ L) :
    (generatePassword L src).length = L ∧
    (generatePassword L src).data.all isUpperHexChar = true ∧
    randBufLen L = L / 2 + 1 := by
  refine ⟨?_, ?_, rfl⟩
  · show (((hexEncode (randRead src (randBufLen L))).map
      Char.toUpper).take L).length = L
    rw [List.length_take, List.length_map, hexEncode_length, randRead_length]
    unfold randBufLen
    omega
  · show (((hexEncode (randRead src (randBufLen L))).map
      Char.toUpper).take L).all isUpperHexChar = true
    rw [List.all_eq_true]
    intro c hc
    exact hexEncode_chars_upper_ok _ c (List.mem_of_mem_take hc)

theorem generatePassword_spec_witness :
    (1 : Nat) ≤ 5 ∧
    ((generatePassword 5 ⟨fun _ => 171, true⟩).length = 5 ∧
     (generatePassword 5 ⟨fun _ => 171, true⟩).data.all isUpperHexChar = true ∧
     randBufLen 5 = 5 / 2 + 1) :=
  ⟨by decide, generatePassword_spec 5 ⟨fun _ => 171, true⟩ (by decide)⟩

/-- Claim C4 counterexample: for the odd length 13 the code allocates
`13/2+1 = 7` random bytes, not the claimed `⌈13/2⌉+1 = 8` bytes. -/
theorem generatePassword_bytes_counterexample :
    ¬ randBufLen 13 = (13 + 1) / 2 + 1 := by decide

/-- Claim C3: when the secure random source is unavailable (the read
fails having filled nothing), generatePassword does not fail: it returns
the uppercase hex encoding of the zeroed buffer, a fixed predictable
token independent of the stream — the silent-degradation branch is
exactly what the code takes, since the rand.Read error is discarded. -/
theorem generatePassword_silent_degradation (stream : Nat → Fin 256) :
    generatePassword 16 ⟨stream, false⟩ = "0000000000000000" := rfl

/-! ### Credential and environment synthesizer (prepareEnvVars) -/

/-- Insert-or-overwrite for the environment map (Go map assignment),
modelled on an association list. -/
def insertEnv : List (String × String) → String → String →
    List (String × String)
  | [], k, v => [(k, v)]
  | (k', v') :: rest, k, v =>
    if k' == k then (k', v) :: rest else (k', v') :: insertEnv rest k v

/-- Lookup in the environment map (Go map indexing). -/
def lookupEnv (m : List (String × String)) (k : String) : Option String :=
  (m.find? (fun p => p.1 == k)).map (fun p => p.2)

/-- keyMapping from prepareEnvVars: the fixed table of well-known
input-key → environment-variable translations. -/
def keyMapping : List (String × String) :=
  [("domain", "DOMAIN"),
   ("timezone", "TIMEZONE"),
   ("basic_auth_user", "BASIC_AUTH_USER"),
   ("basic_auth_password", "BASIC_AUTH_PASSWORD"),
   ("admin_user", "ADMIN_USER"),
   ("admin_password", "ADMIN_PASSWORD"),
   ("admin_email", "ADMIN_EMAIL"),
   ("site_title", "SITE_TITLE")]

/-- Mechanical fallback translation:
`strings.ToUpper(strings.ReplaceAll(key, "-", "_"))`. -/
def goEnvKey (k : String) : String :=
  String.mk (k.data.map (fun c => Char.toUpper (if c == '-' then '_' else c)))

/-- Key translation as performed in both loops of prepareEnvVars: the
well-known table entry when the key is known, the mechanical translation
otherwise. -/
def translateKey (k : String) : String :=
  match keyMapping.find? (fun p => p.1 == k) with
  | some p => p.2
  | none => goEnvKey k

/-- Baseline secrets seeded first by prepareEnvVars. -/
def baselineEnv (gen : Nat → String) : List (String × String) :=
  insertEnv (insertEnv (insertEnv [] "DB_PASSWORD" (gen 16))
    "ADMIN_PASSWORD" (gen 12)) "SECRET_KEY" (gen 48)

/-- One iteration of the user-input loop of prepareEnvVars: skip empty
values, otherwise assign under the translated key. -/
def userApplyStep (m : List (String × String)) (p : String × String) :
    List (String × String) :=
  if p.2 == "" then m else insertEnv m (translateKey p.1) p.2

/-- One iteration of the declared-input loop of prepareEnvVars: generate
a 12-character secret for a password-typed input whose translated key is
still unset. -/
def pwGenStep (gen : Nat → String) (m : List (String × String))
    (p : String × InputConfig) : List (String × String) :=
  if (lookupEnv m (translateKey p.1)).isNone && p.2.type == "password"
  then insertEnv m (translateKey p.1) (gen 12) else m

/-- Final step of prepareEnvVars: default DOMAIN to localhost when
unset. -/
def domainDefaultStep (m : List (String × String)) :
    List (String × String) :=
  if (lookupEnv m "DOMAIN").isNone then insertEnv m "DOMAIN" "localhost"
  else m

/-- prepareEnvVars from docker.go. The generator parameter `gen` stands
for the calls to generatePassword (an impure function of the requested
length); `inputs` carries the user-input map in its iteration order. -/
def prepareEnvVars (detail : CatalogDetail) (inputs : List (String × String))
    (gen : Nat → String) : List (String × String) :=
  domainDefaultStep
    (detail.Inputs.foldl (pwGenStep gen)
      (inputs.foldl userApplyStep (baselineEnv gen)))

theorem lookupEnv_insertEnv_self (m : List (String × String)) (k v : String) :
    lookupEnv (insertEnv m k v) k = some v := by
  induction m with
  | nil => simp [insertEnv, lookupEnv]
  | cons p rest ih =>
    by_cases h : p.1 == k
    · cases p
      simp_all [insertEnv, lookupEnv, List.find?]
    · cases p
      simp_all [insertEnv, lookupEnv, List.find?]

theorem lookupEnv_insertEnv_other (m : List (String × String)) (k k' v : String)
    (h : k' ≠ k) : lookupEnv (insertEnv m k v) k' = lookupEnv m k' := by
  induction m with
  | nil =>
    have hkk : (k == k') = false := beq_eq_false_iff_ne.mpr (fun hc => h hc.symm)
    simp [insertEnv, lookupEnv, List.find?, hkk]
  | cons p rest ih =>
    cases p with
    | mk pk pv =>
      by_cases hk : pk == k
      · have hkk : pk = k := by simpa using hk
        subst hkk
        have h2 : ¬ (pk == k') := by simpa using (fun hc => h hc.symm)
        simp [insertEnv, lookupEnv, List.find?, hk, h2]
      · by_cases h2 : pk == k'
        · simp [insertEnv, lookupEnv, List.find?, hk, h2]
        · simp only [insertEnv, hk, if_false, lookupEnv, List.find?, h2]
          exact ih

theorem lookupEnv_insertEnv_isSome (m : List (String × String))
    (k k' v : String) (h : (lookupEnv m k').isSome = true) :
    (lookupEnv (insertEnv m k v) k').isSome = true := by
  by_cases hk : k' = k
  · subst hk
    rw [lookupEnv_insertEnv_self]
    rfl
  · rw [lookupEnv_insertEnv_other _ _ _ _ hk]
    exact h

/-- Every value stored in the map is a non-empty string. -/
def NonEmptyVals (m : List (String × String)) : Prop :=
  ∀ k v, lookupEnv m k = some v → v ≠ ""

theorem nonEmptyVals_nil : NonEmptyVals [] := by
  intro k v h
  simp [lookupEnv, List.find?] at h

theorem nonEmptyVals_insertEnv {m : List (String × String)} {k v : String}
    (h : NonEmptyVals m) (hv : v ≠ "") : NonEmptyVals (insertEnv m k v) := by
  intro k' w hw
  by_cases hk : k' = k
  · subst hk
    rw [lookupEnv_insertEnv_self] at hw
    cases hw
    exact hv
  · rw [lookupEnv_insertEnv_other _ _ _ _ hk] at hw
    exact h k' w hw

theorem nonEmptyVals_baselineEnv (gen : Nat → String)
    (h16 : gen 16 ≠ "") (h12 : gen 12 ≠ "") (h48 : gen 48 ≠ "") :
    NonEmptyVals (baselineEnv gen) :=
  nonEmptyVals_insertEnv
    (nonEmptyVals_insertEnv (nonEmptyVals_insertEnv nonEmptyVals_nil h16) h12)
    h48

theorem nonEmptyVals_userFold (l : List (String × String)) :
    ∀ m, NonEmptyVals m → NonEmptyVals (l.foldl userApplyStep m) := by
  induction l with
  | nil => intro m h; exact h
  | cons p rest ih =>
    intro m h
    rw [List.foldl_cons]
    refine ih _ ?_
    unfold userApplyStep
    by_cases hp : (p.2 == "") = true
    · simp [hp, h]
    · rw [if_neg (by simp [hp])]
      exact nonEmptyVals_insertEnv h (by simpa using hp)

theorem nonEmptyVals_pwFold (gen : Nat → String) (h12 : gen 12 ≠ "")
    (l : List (String × InputConfig)) :
    ∀ m, NonEmptyVals m → NonEmptyVals (l.foldl (pwGenStep gen) m) := by
  induction l with
  | nil => intro m h; exact h
  | cons p rest ih =>
    intro m h
    rw [List.foldl_cons]
    refine ih _ ?_
    unfold pwGenStep
    by_cases hc : ((lookupEnv m (translateKey p.1)).isNone &&
        p.2.type == "password") = true
    · rw [if_pos (by simpa using hc)]
      exact nonEmptyVals_insertEnv h h12
    · rw [if_neg (by simpa using hc)]
      exact h

theorem nonEmptyVals_domainDefaultStep {m : List (String × String)}
    (h : NonEmptyVals m) : NonEmptyVals (domainDefaultStep m) := by
  unfold domainDefaultStep
  by_cases hc : (lookupEnv m "DOMAIN").isNone = true
  · rw [if_pos (by simpa using hc)]
    exact nonEmptyVals_insertEnv h (by decide)
  · rw [if_neg (by simpa using hc)]
    exact h

theorem isSome_userFold (l : List (String × String)) (k : String) :
    ∀ m, (lookupEnv m k).isSome = true →
    (lookupEnv (l.foldl userApplyStep m) k).isSome = true := by
  induction l with
  | nil => intro m h; exact h
  | cons p rest ih =>
    intro m h
    rw [List.foldl_cons]
    refine ih _ ?_
    unfold userApplyStep
    by_cases hp : (p.2 == "") = true
    · simp [hp, h]
    · rw [if_neg (by simp [hp])]
      exact lookupEnv_insertEnv_isSome _ _ _ _ h

theorem isSome_pwFold (gen : Nat → String)
    (l : List (String × InputConfig)) (k : String) :
    ∀ m, (lookupEnv m k).isSome = true →
    (lookupEnv (l.foldl (pwGenStep gen) m) k).isSome = true := by
  induction l with
  | nil => intro m h; exact h
  | cons p rest ih =>
    intro m h
    rw [List.foldl_cons]
    refine ih _ ?_
    unfold pwGenStep
    by_cases hc : ((lookupEnv m (translateKey p.1)).isNone &&
        p.2.type == "password") = true
    · rw [if_pos (by simpa using hc)]
      exact lookupEnv_insertEnv_isSome _ _ _ _ h
    · rw [if_neg (by simpa using hc)]
      exact h

theorem isSome_domainDefaultStep {m : List (String × String)} {k : String}
    (h : (lookupEnv m k).isSome = true) :
    (lookupEnv (domainDefaultStep m) k).isSome = true := by
  unfold domainDefaultStep
  by_cases hc : (lookupEnv m "DOMAIN").isNone = true
  · rw [if_pos (by simpa using hc)]
    exact lookupEnv_insertEnv_isSome _ _ _ _ h
  · rw [if_neg (by simpa using hc)]
    exact h

theorem stable_pwFold (gen : Nat → String)
    (l : List (String × InputConfig)) (k v : String) :
    ∀ m, lookupEnv m k = some v →
    lookupEnv (l.foldl (pwGenStep gen) m) k = some v := by
  induction l with
  | nil => intro m h; exact h
  | cons p rest ih =>
    intro m h
    rw [List.foldl_cons]
    refine ih _ ?_
    unfold pwGenStep
    by_cases hc : ((lookupEnv m (translateKey p.1)).isNone &&
        p.2.type == "password") = true
    · rw [if_pos (by simpa using hc)]
      have hnone : (lookupEnv m (translateKey p.1)).isNone = true :=
        (Bool.and_eq_true _ _ |>.mp hc).1
      have hk : k ≠ translateKey p.1 := by
        intro he
        rw [← he, h] at hnone
        simp at hnone
      rw [lookupEnv_insertEnv_other _ _ _ _ hk]
      exact h
    · rw [if_neg (by simpa using hc)]
      exact h

theorem stable_domainDefaultStep {m : List (String × String)} {k v : String}
    (h : lookupEnv m k = some v) :
    lookupEnv (domainDefaultStep m) k = some v := by
  unfold domainDefaultStep
  by_cases hc : (lookupEnv m "DOMAIN").isNone = true
  · rw [if_pos (by simpa using hc)]
    have hk : k ≠ "DOMAIN" := by
      intro he
      rw [← he, h] at hc
      simp at hc
    rw [lookupEnv_insertEnv_other _ _ _ _ hk]
    exact h
  · rw [if_neg (by simpa using hc)]
    exact h

theorem userFold_value_stable (l : List (String × String)) (k v : String)
    (h : ∀ q ∈ l, q.2 ≠ "" → translateKey q.1 = k → q.2 = v) :
    ∀ m, lookupEnv m k = some v →
    lookupEnv (l.foldl userApplyStep m) k = some v := by
  induction l with
  | nil => intro m hm; exact hm
  | cons q rest ih =>
    intro m hm
    rw [List.foldl_cons]
    refine ih (fun r hr => h r (List.mem_cons_of_mem _ hr)) _ ?_
    unfold userApplyStep
    by_cases hq : (q.2 == "") = true
    · simp [hq, hm]
    · rw [if_neg (by simp [hq])]
      by_cases hk : translateKey q.1 = k
      · have hv : q.2 = v :=
          h q (List.mem_cons_self _ _) (by simpa using hq) hk
        rw [hk, hv]
        exact lookupEnv_insertEnv_self _ _ _
      · rw [lookupEnv_insertEnv_other _ _ _ _ (fun he => hk he.symm)]
        exact hm

theorem userFold_verbatim (l : List (String × String)) (p : String × String)
    (hp : p ∈ l) (hne : p.2 ≠ "")
    (huniq : ∀ q ∈ l, q.2 ≠ "" →
      translateKey q.1 = translateKey p.1 → q = p) :
    ∀ m, lookupEnv (l.foldl userApplyStep m) (translateKey p.1) = some p.2 := by
  induction l with
  | nil => cases hp
  | cons r rest ih =>
    intro m
    rw [List.foldl_cons]
    rcases List.mem_cons.mp hp with he | hmem
    · subst he
      refine userFold_value_stable rest (translateKey p.1) p.2
        (fun q hq hqne hqk => by
          rw [huniq q (List.mem_cons_of_mem _ hq) hqne hqk]) _ ?_
      unfold userApplyStep
      rw [if_neg (by simpa using hne)]
      exact lookupEnv_insertEnv_self _ _ _
    · exact ih hmem (fun q hq => huniq q (List.mem_cons_of_mem _ hq)) _

theorem pwFold_password_isSome (gen : Nat → String)
    (l : List (String × InputConfig)) (p : String × InputConfig)
    (hp : p ∈ l) (hty : p.2.type = "password") :
    ∀ m, (lookupEnv (l.foldl (pwGenStep gen) m)
      (translateKey p.1)).isSome = true := by
  induction l with
  | nil => cases hp
  | cons q rest ih =>
    intro m
    rw [List.foldl_cons]
    rcases List.mem_cons.mp hp with he | hmem
    · subst he
      refine isSome_pwFold gen rest _ _ ?_
      unfold pwGenStep
      by_cases hn : (lookupEnv m (translateKey p.1)).isNone = true
      · rw [if_pos (by simp [hn, hty])]
        rw [lookupEnv_insertEnv_self]
        rfl
      · have hs : (lookupEnv m (translateKey p.1)).isSome = true := by
          cases hl : lookupEnv m (translateKey p.1) with
          | none => rw [hl] at hn; simp at hn
          | some w => rfl
        by_cases hc : ((lookupEnv m (translateKey p.1)).isNone &&
            p.2.type == "password") = true
        · rw [if_pos (by simpa using hc)]
          rw [lookupEnv_insertEnv_self]
          rfl
        · rw [if_neg (by simpa using hc)]
          exact hs
    · exact ih hmem _

theorem baseline_isSome (gen : Nat → String) (bk : String)
    (hbk : bk ∈ (["DB_PASSWORD", "ADMIN_PASSWORD", "SECRET_KEY"] : List String)) :
    (lookupEnv (baselineEnv gen) bk).isSome = true := by
  unfold baselineEnv
  rcases List.mem_cons.mp hbk with rfl | hbk
  · rw [lookupEnv_insertEnv_other _ _ _ _ (by decide),
      lookupEnv_insertEnv_other _ _ _ _ (by decide),
      lookupEnv_insertEnv_self]
    rfl
  rcases List.mem_cons.mp hbk with rfl | hbk
  · rw [lookupEnv_insertEnv_other _ _ _ _ (by decide),
      lookupEnv_insertEnv_self]
    rfl
  rcases List.mem_cons.mp hbk with rfl | hbk
  · rw [lookupEnv_insertEnv_self]
    rfl
  · cases hbk

/-- Claim C5 (amended): for every software definition, every user-input
map and every generator producing non-empty tokens, the synthesized
environment contains a non-empty value for every declared input of type
password and for the three baseline secrets — unconditionally, colliding
input maps included — and every user-supplied input with a non-empty
value whose translated environment name is not shared with another
non-empty user input appears verbatim in the output under its translated
environment name, never overwritten by a generated default. -/
theorem prepareEnvVars_spec (detail : CatalogDetail)
    (inputs : List (String × String)) (gen : Nat → String)
    (hgen : ∀ L, 1 ≤ L → gen L ≠ "") :
    (∀ p ∈ detail.Inputs, p.2.type = "password" →
      ∃ v, lookupEnv (prepareEnvVars detail inputs gen) (translateKey p.1)
        = some v ∧ v ≠ "") ∧
    (∀ bk ∈ (["DB_PASSWORD", "ADMIN_PASSWORD", "SECRET_KEY"] : List String),
      ∃ v, lookupEnv (prepareEnvVars detail inputs gen) bk
        = some v ∧ v ≠ "") ∧
    (∀ p ∈ inputs, p.2 ≠ "" →
      (∀ q ∈ inputs, q.2 ≠ "" →
        translateKey q.1 = translateKey p.1 → q = p) →
      lookupEnv (prepareEnvVars detail inputs gen) (translateKey p.1)
        = some p.2) := by
  have h16 := hgen 16 (by omega)
  have h12 := hgen 12 (by omega)
  have h48 := hgen 48 (by omega)
  have hne : NonEmptyVals (prepareEnvVars detail inputs gen) := by
    unfold prepareEnvVars
    exact nonEmptyVals_domainDefaultStep
      (nonEmptyVals_pwFold gen h12 _ _
        (nonEmptyVals_userFold _ _ (nonEmptyVals_baselineEnv gen h16 h12 h48)))
  refine ⟨?_, ?_, ?_⟩
  · intro p hp hty
    have hs : (lookupEnv (prepareEnvVars detail inputs gen)
        (translateKey p.1)).isSome = true := by
      unfold prepareEnvVars
      exact isSome_domainDefaultStep (pwFold_password_isSome gen _ p hp hty _)
    cases hl : lookupEnv (prepareEnvVars detail inputs gen) (translateKey p.1) with
    | none => rw [hl] at hs; simp at hs
    | some v => exact ⟨v, rfl, hne _ v hl⟩
  · intro bk hbk
    have hs : (lookupEnv (prepareEnvVars detail inputs gen) bk).isSome = true := by
      unfold prepareEnvVars
      exact isSome_domainDefaultStep
        (isSome_pwFold gen _ bk _
          (isSome_userFold _ bk _ (baseline_isSome gen bk hbk)))
    cases hl : lookupEnv (prepareEnvVars detail inputs gen) bk with
    | none => rw [hl] at hs; simp at hs
    | some v => exact ⟨v, rfl, hne _ v hl⟩
  · intro p hp hpne huniq
    unfold prepareEnvVars
    exact stable_domainDefaultStep
      (stable_pwFold gen _ _ _ _ (userFold_verbatim inputs p hp hpne huniq _))

/-- Deterministic stand-in for the generator, used to instantiate
theorems on concrete inputs. -/
def witGen (L : Nat) : String := String.mk (List.replicate L 'A')

theorem witGen_ne_empty : ∀ L, 1 ≤ L → witGen L ≠ "" := by
  intro L hL hc
  have hlen : (witGen L).length = L := by
    show (List.replicate L 'A').length = L
    simp
  rw [hc] at hlen
  simp at hlen
  omega

/-- Concrete software definition used by witnesses. -/
def cInput : InputConfig := ⟨"Admin password", "", true, "password", "", ""⟩

/-- Concrete catalog detail with one declared password input. -/
def cDetail : CatalogDetail :=
  ⟨"App", "", "", "", "", [], [("admin_password", cInput)], []⟩

/-- Concrete user inputs for the witness. -/
def cInputs : List (String × String) := [("domain", "example.com")]

theorem prepareEnvVars_spec_witness :
    (∃ v, lookupEnv (prepareEnvVars cDetail cInputs witGen)
       (translateKey "admin_password") = some v ∧ v ≠ "") ∧
    (∃ v, lookupEnv (prepareEnvVars cDetail cInputs witGen) "DB_PASSWORD"
       = some v ∧ v ≠ "") ∧
    lookupEnv (prepareEnvVars cDetail cInputs witGen) (translateKey "domain")
      = some "example.com" := by
  have h := prepareEnvVars_spec cDetail cInputs witGen witGen_ne_empty
  exact ⟨h.1 ("admin_password", cInput) (by simp [cDetail]) rfl,
    h.2.1 "DB_PASSWORD" (by simp),
    h.2.2 ("domain", "example.com") (by simp [cInputs]) (by decide)
      (by intro q hq _ _; simpa [cInputs] using hq)⟩

/-- Catalog detail with no declared inputs, for the counterexample. -/
def emptyDetail : CatalogDetail := ⟨"", "", "", "", "", [], [], []⟩

/-- Claim C5 counterexample: the user keys "admin-password" and
"admin_password" both translate to ADMIN_PASSWORD; with both supplied
non-empty, the first one supplied does not appear verbatim in the output
under its translated environment name. -/
theorem prepareEnvVars_verbatim_counterexample :
    ¬ lookupEnv (prepareEnvVars emptyDetail
        [("admin-password", "userA"), ("admin_password", "userB")] witGen)
      (translateKey "admin-password") = some "userA" := by decide

/-! ### Port resolver (findExposedPort) -/

/-- Substring scan: does the pattern occur as a contiguous run in the
character list (strings.Contains)? -/
def containsSeq (pat : List Char) : List Char → Bool
  | [] => pat.isPrefixOf []
  | c :: rest => pat.isPrefixOf (c :: rest) || containsSeq pat rest

/-- strings.Contains over the model. -/
def strContains (s pat : String) : Bool := containsSeq pat.data s.data

/-- The double-quote character. -/
def dquoteChar : Char := Char.ofNat 34

/-- The single-quote character. -/
def squoteChar : Char := Char.ofNat 39

/-- The pattern `- "<port>:` from findExposedPort. -/
def portPatternDouble (port : String) : String :=
  String.mk ('-' :: ' ' :: dquoteChar :: (port.data ++ [':']))

/-- The pattern `- <quote><port>:` with a single quote. -/
def portPatternSingle (port : String) : String :=
  String.mk ('-' :: ' ' :: squoteChar :: (port.data ++ [':']))

/-- The portMap table of findExposedPort, in source-text order. In Go it
is a map literal, so this listing order is NOT the iteration order. -/
def portTable : List (String × Int) :=
  [("2368", 2368), ("3000", 3000), ("3001", 3001), ("5678", 5678),
   ("8000", 8000), ("8065", 8065), ("8080", 8080), ("8096", 8096),
   ("80", 80)]

/-- findExposedPort from docker.go: first table entry whose quoted
host-port pattern occurs in the composition text, else 0. Go ranges over
the map with an unspecified, randomized iteration order; the `order`
argument makes that order explicit and ranges over permutations of
`portTable`. -/
def findExposedPort (content : String) : List (String × Int) → Int
  | [] => 0
  | (p, n) :: rest =>
    if strContains content (portPatternDouble p) ||
       strContains content (portPatternSingle p) then n
    else findExposedPort content rest

/-- Composition text containing both a `- "80:80"` and a `- "8080:8080"`
host-port mapping. -/
def bothPortsText : String :=
  "    ports:\n      - \"80:80\"\n      - \"8080:8080\"\n"

/-- A second permutation of the same port table, with "80" first. -/
def portTableAlt : List (String × Int) :=
  [("80", 80), ("2368", 2368), ("3000", 3000), ("3001", 3001),
   ("5678", 5678), ("8000", 8000), ("8065", 8065), ("8080", 8080),
   ("8096", 8096)]

/-- Claim C2: port detection is NOT a deterministic function of the
composition text alone. Two iteration orders, both permutations of the
port table (as a Go map range can produce), give different ports on the
same text containing both "80:80" and "8080:8080"; on text with no table
pattern the result is 0 under any order. This contradicts the code's own
comment "order matters, check more specific first", which an unordered Go
map cannot honour. -/
theorem findExposedPort_order_dependent :
    portTable.Perm portTableAlt ∧
    findExposedPort bothPortsText portTable = 8080 ∧
    findExposedPort bothPortsText portTableAlt = 80 ∧
    findExposedPort "no mappings here" portTable = 0 :=
  ⟨by decide, by decide, by decide, by decide⟩

/-! ### Lifecycle trace model over the store (Claim C1) -/

/-- One successful lifecycle operation, as committed to the store:
deploy appends its fresh record via addDeployment; stop/start update the
found record's status; destroy removes the found record. -/
inductive Op where
  | deploy (d : LocalDeployment)
  | stop (software : String) (now : Nat)
  | start (software : String) (now : Nat)
  | destroy (software : String)

/-- Effect of one successful operation on the deployment list, following
Stop/Start/Destroy in the CLI service file and the commit of
deployLocal. -/
def stepOp (ds : List LocalDeployment) : Op → List LocalDeployment
  | Op.deploy d => addDeployment ds d
  | Op.stop sw now =>
    match findDeployment ds sw with
    | none => ds
    | some d => (updateDeploymentStatus ds d.ID "stopped" now).1
  | Op.start sw now =>
    match findDeployment ds sw with
    | none => ds
    | some d => (updateDeploymentStatus ds d.ID "running" now).1
  | Op.destroy sw =>
    match findDeployment ds sw with
    | none => ds
    | some d => (removeDeployment ds d.ID).1

/-- Run a trace of operations from the empty store. -/
def runOps (ops : List Op) : List LocalDeployment := ops.foldl stepOp []

/-- A trace is safe when every deploy targets a slug with no tracked
record at that point. -/
def safeOps : List LocalDeployment → List Op → Bool
  | _, [] => true
  | ds, op :: rest =>
    (match op with
     | Op.deploy d => (findDeployment ds d.Software).isNone
     | _ => true) && safeOps (stepOp ds op) rest

/-- Number of records in the store for a given slug. -/
def countSlug (ds : List LocalDeployment) (sw : String) : Nat :=
  ds.countP (fun d => d.Software == sw)

theorem countSlug_addDeployment (ds : List LocalDeployment)
    (d : LocalDeployment) (sw : String) :
    countSlug (addDeployment ds d) sw =
      countSlug ds sw + (if d.Software == sw then 1 else 0) := by
  unfold countSlug addDeployment
  rw [List.countP_append]
  by_cases h : (d.Software == sw) = true <;>
    simp [List.countP_cons, h]

theorem countSlug_updateDeploymentStatus (ds : List LocalDeployment)
    (i status : String) (now : Nat) (sw : String) :
    countSlug (updateDeploymentStatus ds i status now).1 sw =
      countSlug ds sw := by
  induction ds with
  | nil => rfl
  | cons d rest ih =>
    unfold updateDeploymentStatus
    by_cases h : (d.ID == i) = true
    · simp [h, countSlug, List.countP_cons]
    · simp only [h, if_false, Bool.false_eq_true]
      simp only [countSlug, List.countP_cons] at ih ⊢
      rw [ih]

theorem countSlug_removeDeployment (ds : List LocalDeployment)
    (i sw : String) :
    countSlug (removeDeployment ds i).1 sw ≤ countSlug ds sw := by
  induction ds with
  | nil => simp [removeDeployment]
  | cons d rest ih =>
    unfold removeDeployment
    by_cases h : (d.ID == i) = true
    · simp only [h, if_true]
      simp only [countSlug, List.countP_cons]
      omega
    · simp only [h, if_false, Bool.false_eq_true]
      simp only [countSlug, List.countP_cons] at ih ⊢
      omega

theorem findDeployment_none_countSlug (ds : List LocalDeployment)
    (sw : String) (h : findDeployment ds sw = none) :
    countSlug ds sw = 0 := by
  unfold findDeployment at h
  rw [List.find?_eq_none] at h
  unfold countSlug
  rw [List.countP_eq_zero]
  exact h

theorem stepOp_preserves_atMostOne (ds : List LocalDeployment) (op : Op)
    (hinv : ∀ sw, countSlug ds sw ≤ 1)
    (hdep : ∀ d, op = Op.deploy d →
      (findDeployment ds d.Software).isNone = true) :
    ∀ sw, countSlug (stepOp ds op) sw ≤ 1 := by
  intro sw
  cases op with
  | deploy d =>
    rw [stepOp, countSlug_addDeployment]
    by_cases h : (d.Software == sw) = true
    · have hnone : findDeployment ds d.Software = none := by
        have := hdep d rfl
        cases hf : findDeployment ds d.Software with
        | none => rfl
        | some x => rw [hf] at this; simp at this
      have he : d.Software = sw := by simpa using h
      have h0 : countSlug ds sw = 0 := by
        rw [← he]
        exact findDeployment_none_countSlug ds d.Software hnone
      simp [h, h0]
    · simp only [h, if_false, Bool.false_eq_true, Nat.add_zero]
      exact hinv sw
  | stop sw' now =>
    rw [stepOp]
    cases hf : findDeployment ds sw' with
    | none => exact hinv sw
    | some d =>
      rw [countSlug_updateDeploymentStatus]
      exact hinv sw
  | start sw' now =>
    rw [stepOp]
    cases hf : findDeployment ds sw' with
    | none => exact hinv sw
    | some d =>
      rw [countSlug_updateDeploymentStatus]
      exact hinv sw
  | destroy sw' =>
    rw [stepOp]
    cases hf : findDeployment ds sw' with
    | none => exact hinv sw
    | some d =>
      exact le_trans (countSlug_removeDeployment ds d.ID sw) (hinv sw)

theorem atMostOne_foldl (ops : List Op) :
    ∀ ds, (∀ sw, countSlug ds sw ≤ 1) → safeOps ds ops = true →
    ∀ sw, countSlug (ops.foldl stepOp ds) sw ≤ 1 := by
  induction ops with
  | nil => intro ds h _ sw; exact h sw
  | cons op rest ih =>
    intro ds h hsafe sw
    rw [List.foldl_cons]
    unfold safeOps at hsafe
    rw [Bool.and_eq_true] at hsafe
    refine ih (stepOp ds op)
      (stepOp_preserves_atMostOne ds op h ?_) hsafe.2 sw
    intro d hd
    subst hd
    exact hsafe.1

/-- Claim C1 (amended): along every trace of successful lifecycle
operations from the empty store in which each deploy targets a slug with
no tracked record, the store holds at most one record per slug. The
unrestricted claim is false: deploy commits via addDeployment, which
appends unconditionally, so a deploy of an already-tracked slug leaves
two records for that slug (see the counterexample). -/
theorem deployments_at_most_one_per_slug (ops : List Op)
    (hsafe : safeOps [] ops = true) :
    ∀ sw, countSlug (runOps ops) sw ≤ 1 := by
  unfold runOps
  exact atMostOne_foldl ops [] (fun sw => by simp [countSlug]) hsafe

/-- A concrete deployment record for the slug "ghost". -/
def dGhost1 : LocalDeployment :=
  ⟨"id-0001", "ghost", "local", "running", "deployments/ghost", 2368, [],
   10, 10⟩

/-- A second record for the same slug, with a fresh id. -/
def dGhost2 : LocalDeployment :=
  ⟨"id-0002", "ghost", "local", "running", "deployments/ghost", 2368, [],
   20, 20⟩

theorem deployments_at_most_one_per_slug_witness :
    safeOps [] [Op.deploy dGhost1, Op.stop "ghost" 11, Op.start "ghost" 12,
      Op.destroy "ghost", Op.deploy dGhost2] = true ∧
    countSlug (runOps [Op.deploy dGhost1, Op.stop "ghost" 11,
      Op.start "ghost" 12, Op.destroy "ghost", Op.deploy dGhost2])
      "ghost" ≤ 1 :=
  ⟨by decide, deployments_at_most_one_per_slug _ (by decide) "ghost"⟩

/-! ### Persisted state file (loadDeployments / saveDeployments)

The `encoding/json` layer is modelled at the JSON-value level; a `Json`
term stands for the text of `deployments.json`. Encoding follows the
struct tags of types.go; decoding follows Go unmarshalling: a missing
field or a JSON null leaves the zero value, a type mismatch is an
error. -/

/-- JSON values. -/
inductive Json where
  | null : Json
  | str : String → Json
  | num : Int → Json
  | jsonBool : Bool → Json
  | arr : List Json → Json
  | obj : List (String × Json) → Json

/-- Field lookup in a JSON object, as Go matches struct tags. -/
def getField (fields : List (String × Json)) (k : String) : Option Json :=
  (fields.find? (fun p => p.1 == k)).map (fun p => p.2)

/-- Unmarshal a string field: missing or null gives the zero value "". -/
def decodeStrField (fields : List (String × Json)) (k : String) :
    Option String :=
  match getField fields k with
  | none => some ""
  | some Json.null => some ""
  | some (Json.str s) => some s
  | some _ => none

/-- Unmarshal an int field: missing or null gives 0. -/
def decodeIntField (fields : List (String × Json)) (k : String) :
    Option Int :=
  match getField fields k with
  | none => some 0
  | some Json.null => some 0
  | some (Json.num n) => some n
  | some _ => none

/-- Unmarshal a timestamp field (time abstracted to Nat): a negative
number is rejected. -/
def decodeNatField (fields : List (String × Json)) (k : String) :
    Option Nat :=
  match getField fields k with
  | none => some 0
  | some Json.null => some 0
  | some (Json.num (Int.ofNat n)) => some n
  | some (Json.num (Int.negSucc _)) => none
  | some _ => none

/-- Unmarshal a map[string]string object body. -/
def decodePairs : List (String × Json) → Option (List (String × String))
  | [] => some []
  | (k, Json.str v) :: rest => (decodePairs rest).map (fun l => (k, v) :: l)
  | _ => none

/-- Unmarshal the inputs field: missing or null gives the empty map. -/
def decodeInputsField (fields : List (String × Json)) (k : String) :
    Option (List (String × String)) :=
  match getField fields k with
  | none => some []
  | some Json.null => some []
  | some (Json.obj fs) => decodePairs fs
  | some _ => none

/-- Marshalling of one LocalDeployment, per the json tags of types.go. -/
def encodeDeployment (d : LocalDeployment) : Json :=
  Json.obj
    [("id", Json.str d.ID),
     ("software", Json.str d.Software),
     ("target", Json.str d.Target),
     ("status", Json.str d.Status),
     ("directory", Json.str d.Directory),
     ("port", Json.num d.Port),
     ("inputs", Json.obj (d.Inputs.map (fun p => (p.1, Json.str p.2)))),
     ("created_at", Json.num (Int.ofNat d.CreatedAt)),
     ("updated_at", Json.num (Int.ofNat d.UpdatedAt))]

/-- Unmarshalling of one LocalDeployment. -/
def decodeDeployment : Json → Option LocalDeployment
  | Json.obj fields => do
      let i ← decodeStrField fields "id"
      let sw ← decodeStrField fields "software"
      let tg ← decodeStrField fields "target"
      let st ← decodeStrField fields "status"
      let dir ← decodeStrField fields "directory"
      let port ← decodeIntField fields "port"
      let inputs ← decodeInputsField fields "inputs"
      let ca ← decodeNatField fields "created_at"
      let ua ← decodeNatField fields "updated_at"
      pure ⟨i, sw, tg, st, dir, port, inputs, ca, ua⟩
  | _ => none

/-- Unmarshal a JSON array of deployments elementwise. -/
def decodeDeploymentList : List Json → Option (List LocalDeployment)
  | [] => some []
  | j :: rest => do
      let d ← decodeDeployment j
      let ds ← decodeDeploymentList rest
      pure (d :: ds)

/-- Marshalling of the DeploymentsFile wrapper of types.go. -/
def encodeDeploymentsFile (ds : List LocalDeployment) : Json :=
  Json.obj [("deployments", Json.arr (ds.map encodeDeployment))]

/-- Unmarshalling of the DeploymentsFile wrapper: a missing or null
deployments field gives the empty list. -/
def decodeDeploymentsFile : Json → Option (List LocalDeployment)
  | Json.obj fields =>
    match getField fields "deployments" with
    | none => some []
    | some Json.null => some []
    | some (Json.arr js) => decodeDeploymentList js
    | some _ => none
  | _ => none

/-- loadDeployments from the CLI service file: a missing file (`none`)
or content that does not unmarshal leaves the prior in-memory list (empty
at startup); otherwise the decoded list replaces it. -/
def loadDeployments (prior : List LocalDeployment) (file : Option Json) :
    List LocalDeployment :=
  match file with
  | none => prior
  | some j =>
    match decodeDeploymentsFile j with
    | none => prior
    | some ds => ds

/-- saveDeployments from the CLI service file: marshal the wrapped list
and write it as the state file. -/
def saveDeployments (ds : List LocalDeployment) : Json :=
  encodeDeploymentsFile ds

theorem decodePairs_map (l : List (String × String)) :
    decodePairs (l.map (fun p => (p.1, Json.str p.2))) = some l := by
  induction l with
  | nil => rfl
  | cons p rest ih =>
    cases p
    simp [decodePairs, ih]

theorem decodeDeployment_encodeDeployment (d : LocalDeployment) :
    decodeDeployment (encodeDeployment d) = some d := by
  cases d with
  | mk i sw tg st dir port inputs ca ua =>
    simp [encodeDeployment, decodeDeployment, decodeStrField, decodeIntField,
      decodeNatField, decodeInputsField, getField, List.find?,
      decodePairs_map, Option.bind]

theorem decodeDeploymentList_map (ds : List LocalDeployment) :
    decodeDeploymentList (ds.map encodeDeployment) = some ds := by
  induction ds with
  | nil => rfl
  | cons d rest ih =>
    simp [decodeDeploymentList, decodeDeployment_encodeDeployment, ih]

/-- Claim C9: saving any list of deployments to the state file and then
loading it yields the same list, in content and order, including the
empty list. -/
theorem store_roundtrip (ds : List LocalDeployment) :
    loadDeployments [] (some (saveDeployments ds)) = ds := by
  simp [loadDeployments, saveDeployments, encodeDeploymentsFile,
    decodeDeploymentsFile, getField, List.find?, decodeDeploymentList_map]

/-- Claim C8: loadDeployments is total and never fails: a missing state
file and a file whose content does not decode both yield the empty store
at startup. -/
theorem loadDeployments_tolerant :
    loadDeployments [] none = [] ∧
    ∀ j : Json, decodeDeploymentsFile j = none →
      loadDeployments [] (some j) = [] := by
  refine ⟨rfl, ?_⟩
  intro j hj
  simp [loadDeployments, hj]

theorem loadDeployments_tolerant_witness :
    loadDeployments [] (some (Json.str "not a deployments file")) = [] :=
  loadDeployments_tolerant.2 (Json.str "not a deployments file") rfl

/-! ### Frame effects of unknown-id mutations (Claim C10) -/

/-- Claim C10: when no record has the given id, updateDeploymentStatus
and removeDeployment change nothing and do not invoke saveDeployments
(the state file is not rewritten). -/
theorem store_unknown_id_noop (ds : List LocalDeployment)
    (i status : String) (now : Nat) (h : ∀ d ∈ ds, d.ID ≠ i) :
    updateDeploymentStatus ds i status now = (ds, false) ∧
    removeDeployment ds i = (ds, false) := by
  induction ds with
  | nil => exact ⟨rfl, rfl⟩
  | cons d rest ih =>
    have hd : (d.ID == i) = false :=
      beq_eq_false_iff_ne.mpr (h d (List.mem_cons_self _ _))
    have ihr := ih (fun x hx => h x (List.mem_cons_of_mem _ hx))
    constructor
    · unfold updateDeploymentStatus
      rw [hd]
      simp only [Bool.false_eq_true, if_false, ihr.1]
    · unfold removeDeployment
      rw [hd]
      simp only [Bool.false_eq_true, if_false, ihr.2]

theorem store_unknown_id_noop_witness :
    updateDeploymentStatus [dGhost1] "id-9999" "stopped" 42 =
      ([dGhost1], false) ∧
    removeDeployment [dGhost1] "id-9999" = ([dGhost1], false) :=
  store_unknown_id_noop [dGhost1] "id-9999" "stopped" 42 (by decide)

/-! ### Lifecycle orchestrator with filesystem state (deployLocal,
destroyDocker, Destroy) -/

/-- The parts of the world the orchestrator touches: the tracked
deployment list, the set of directories on disk, and the written files
(path → content). -/
structure SysState where
  deployments : List LocalDeployment
  dirs : List String
  files : List (String × String)
deriving DecidableEq

/-- buildEnvFile from docker.go: KEY=value lines joined by newlines, in
map iteration order. -/
def buildEnvFile (envVars : List (String × String)) : String :=
  String.intercalate "\n" (envVars.map (fun p => p.1 ++ "=" ++ p.2))

/-- destroyDocker from docker.go: run `docker compose down -v` (outcome
`downOk`); only on success delete the deployment directory tree
(os.RemoveAll, error ignored). The Bool is success. -/
def destroyDocker (downOk : Bool) (st : SysState) (d : LocalDeployment) :
    SysState × Bool :=
  if downOk then
    ({ st with
        dirs := st.dirs.filter (fun x => !(x == d.Directory)),
        files := st.files.filter
          (fun f => !((d.Directory ++ "/").isPrefixOf f.1)) }, true)
  else (st, false)

/-- Destroy from the CLI service file, after the record has been found:
tear down via destroyDocker; only on success remove the store record. -/
def Destroy (downOk : Bool) (st : SysState) (software : String) :
    SysState × Bool :=
  match findDeployment st.deployments software with
  | none => (st, false)
  | some d =>
    if (destroyDocker downOk st d).2 then
      ({ (destroyDocker downOk st d).1 with
          deployments :=
            (removeDeployment (destroyDocker downOk st d).1.deployments
              d.ID).1 }, true)
    else ((destroyDocker downOk st d).1, false)

/-- Claim C6: if the engine tear-down-with-volumes fails during destroy
of a tracked deployment, the store record, the directories and the files
are all left exactly as they were, and the operation reports failure. -/
theorem destroy_engine_failure_frame (st : SysState) (software : String)
    (d : LocalDeployment)
    (hfind : findDeployment st.deployments software = some d) :
    Destroy false st software = (st, false) := by
  unfold Destroy
  rw [hfind]
  simp [destroyDocker]

/-- Concrete system state with one tracked deployment for witnesses. -/
def cSysState : SysState :=
  ⟨[dGhost1], ["deployments/ghost"], [("deployments/ghost/.env", "A=B")]⟩

theorem destroy_engine_failure_frame_witness :
    Destroy false cSysState "ghost" = (cSysState, false) :=
  destroy_engine_failure_frame cSysState "ghost" dGhost1 (by decide)

/-- Error kinds surfaced by deployLocal, in source order. -/
inductive DeployError where
  | engineUnavailable
  | mkdirFailed
  | copyFailed
  | composeMissing
  | envWriteFailed
  | engineOpFailed
deriving DecidableEq

/-- Outcomes of the external calls made by deployLocal, plus the other
impure ingredients: the Docker availability probe, MkdirAll, copyDir,
the compose file read, the .env write, `docker compose up -d`, the port
map iteration order, the fresh uuid, the clock, and the token
generator. -/
structure DeployWorld where
  dockerOk : Bool
  mkdirOk : Bool
  copyOk : Bool
  composeContent : Option String
  envWriteOk : Bool
  upOk : Bool
  portOrder : List (String × Int)
  newId : String
  now : Nat
  gen : Nat → String

/-- deployLocal from docker.go: probe Docker, create the deployment
directory, copy the catalog entry, read the compose file, synthesize the
environment and write .env, detect the port, bring the composition up,
and only then commit the new record via addDeployment. -/
def deployLocal (w : DeployWorld) (st : SysState) (software : String)
    (detail : CatalogDetail) (inputs : List (String × String)) :
    SysState × Option DeployError :=
  if !w.dockerOk then (st, some DeployError.engineUnavailable)
  else if !w.mkdirOk then (st, some DeployError.mkdirFailed)
  else
    let deployDir := "deployments/" ++ software
    let st1 : SysState :=
      { st with dirs := if st.dirs.contains deployDir then st.dirs
                        else st.dirs ++ [deployDir] }
    if !w.copyOk then (st1, some DeployError.copyFailed)
    else
      match w.composeContent with
      | none => (st1, some DeployError.composeMissing)
      | some content =>
        let envVars := prepareEnvVars detail inputs w.gen
        if !w.envWriteOk then (st1, some DeployError.envWriteFailed)
        else
          let envPath := deployDir ++ "/.env"
          let st2 : SysState :=
            { st1 with
              files := insertEnv st1.files envPath (buildEnvFile envVars) }
          let port := findExposedPort content w.portOrder
          if !w.upOk then (st2, some DeployError.engineOpFailed)
          else
            let d : LocalDeployment :=
              ⟨w.newId, software, "local", "running", deployDir, port,
               inputs, w.now, w.now⟩
            ({ st2 with deployments := addDeployment st2.deployments d },
             none)

/-- Claim C7: when the Docker availability probe fails, deployLocal
returns the engine-unavailable error and the whole system state — store
records, directories and files — is exactly as before: the probe runs
before any mutation. -/
theorem deploy_probe_failure_frame (w : DeployWorld) (st : SysState)
    (software : String) (detail : CatalogDetail)
    (inputs : List (String × String)) (h : w.dockerOk = false) :
    deployLocal w st software detail inputs =
      (st, some DeployError.engineUnavailable) := by
  unfold deployLocal
  rw [h]
  rfl

/-- A world where only the probe fails. -/
def cWorldDown : DeployWorld :=
  ⟨false, true, true, some "", true, true, portTable, "id-0003", 30, witGen⟩

theorem deploy_probe_failure_frame_witness :
    deployLocal cWorldDown cSysState "gitea" emptyDetail [] =
      (cSysState, some DeployError.engineUnavailable) :=
  deploy_probe_failure_frame cWorldDown cSysState "gitea" emptyDetail [] rfl

/-- A fully successful world producing the id "id-0001". -/
def cWorldOk1 : DeployWorld :=
  ⟨true, true, true, some "    ports:\n      - \"2368:2368\"\n", true, true,
   portTable, "id-0001", 10, witGen⟩

/-- A fully successful world producing the id "id-0002". -/
def cWorldOk2 : DeployWorld :=
  ⟨true, true, true, some "    ports:\n      - \"2368:2368\"\n", true, true,
   portTable, "id-0002", 20, witGen⟩

/-- Claim C1 counterexample: running the full deployLocal pipeline for
the slug "ghost" on a store that already tracks "ghost" succeeds and
leaves TWO records for that slug (addDeployment appends unconditionally);
equally, at the store level a second Op.deploy of the slug yields two
records — not exactly one. -/
theorem deploy_duplicate_slug_counterexample :
    (¬ countSlug (runOps [Op.deploy dGhost1, Op.deploy dGhost2])
        "ghost" ≤ 1) ∧
    countSlug ((deployLocal cWorldOk2
        (deployLocal cWorldOk1 ⟨[], [], []⟩ "ghost" emptyDetail []).1
        "ghost" emptyDetail []).1).deployments "ghost" = 2 :=
  ⟨by decide, by decide⟩

end Opensourcer
